import Mathlib

set_option maxRecDepth 8000

/-!
Shallow embedding of the hypr-ringlight core (src/ipc.rs, src/config.rs,
src/main.rs) and proofs about it.

Conventions:
* Rust `&str` values that are byte-sliced by the code are modelled as UTF-8
  byte lists (`List Nat`, each element a byte); strings that are only compared
  case-insensitively are modelled as Lean `String`.
* Machine integers are `Nat` (with explicit wrap/saturation where the source
  wraps or saturates); `f64` values are modelled exactly, by `Rat` in the
  lock-free store and by `Real` in the per-pixel rendering pipeline.
* Fallible code (Rust panics) returns `Option`, `none` meaning a panic.
-/

/-! ## Byte-level string utilities (for `parse_hex_color` / `color_to_hex`) -/

/-- A UTF-8 continuation byte (second or later byte of a multi-byte scalar). -/
def isContinuationByte (b : Nat) : Bool :=
  128 ≤ b && b < 192

/-- Model of Rust `str::is_char_boundary` for a byte list: true at the ends,
and at an interior index whose byte does not continue a multi-byte scalar.
Byte slicing `&s[i..j]` panics when `i` or `j` is not a char boundary. -/
def isCharBoundary (s : List Nat) (i : Nat) : Bool :=
  if i = 0 then true
  else if i = s.length then true
  else if i < s.length then !isContinuationByte (s.getD i 0)
  else false

/-- Value of one ASCII hexadecimal digit byte, as accepted by
`u8::from_str_radix(_, 16)`. -/
def hexDigitVal (b : Nat) : Option Nat :=
  if 48 ≤ b && b ≤ 57 then some (b - 48)
  else if 97 ≤ b && b ≤ 102 then some (b - 87)
  else if 65 ≤ b && b ≤ 70 then some (b - 55)
  else none

/-- Whether a byte is an ASCII hexadecimal digit (`0-9`, `a-f`, `A-F`). -/
def isHexDigitByte (b : Nat) : Bool :=
  (48 ≤ b && b ≤ 57) || (97 ≤ b && b ≤ 102) || (65 ≤ b && b ≤ 70)

/-- Model of `u8::from_str_radix(s, 16)` on a byte slice: an optional leading
`+` (byte 43) or `-` (byte 45) sign followed by at least one radix-16 digit;
for the unsigned type a negative nonzero value or a value above 255 is an
overflow error. `none` is the `Err` case. -/
def fromStrRadix16U8 (bs : List Nat) : Option Nat :=
  match bs with
  | [] => none
  | b :: rest =>
    let isNeg := b = 45
    let digits := if b = 43 || b = 45 then rest else bs
    if digits.isEmpty then none
    else
      digits.foldl (fun acc d =>
        match acc, hexDigitVal d with
        | some a, some v =>
          if isNeg then (if a = 0 && v = 0 then some 0 else none)
          else if a * 16 + v ≤ 255 then some (a * 16 + v) else none
        | _, _ => none) (some 0)

/-- Model of `parse_hex_color` (src/ipc.rs:134-143, duplicated at
src/main.rs:90-99): strip every leading `#` (byte 35); fewer than 6 bytes left
gives white; otherwise byte-slice three 2-byte groups (panic — `none` — when
offset 2, 4 or 6 splits a multi-byte character) and parse each group with
`u8::from_str_radix(_, 16)`, a rejected group yielding 255. -/
def parse_hex_color (s : List Nat) : Option (Nat × Nat × Nat) :=
  let hex := s.dropWhile (fun b => b = 35)
  if hex.length < 6 then some (255, 255, 255)
  else if isCharBoundary hex 2 && isCharBoundary hex 4 && isCharBoundary hex 6 then
    some ((fromStrRadix16U8 (hex.take 2)).getD 255,
          (fromStrRadix16U8 ((hex.drop 2).take 2)).getD 255,
          (fromStrRadix16U8 ((hex.drop 4).take 2)).getD 255)
  else none

/-- Lowercase hex digit byte for a value below 16, as produced by the
two-lowercase-hex-digit format used in `color_to_hex`. -/
def hexDigitLower (v : Nat) : Nat :=
  if v < 10 then 48 + v else 87 + v

/-- Two-lowercase-hex-digit rendering of one byte value. -/
def toHex2 (n : Nat) : List Nat :=
  [hexDigitLower (n / 16 % 16), hexDigitLower (n % 16)]

/-- Model of `color_to_hex` (src/ipc.rs:163-165): six lowercase hex digits. -/
def color_to_hex (r g b : Nat) : List Nat :=
  toHex2 r ++ toHex2 g ++ toHex2 b

/-- ASCII lowercasing of one byte (`A`-`Z` shifted by 32). -/
def toLowerByte (b : Nat) : Nat :=
  if 65 ≤ b && b ≤ 90 then b + 32 else b

/-! ## Rust float-to-unsigned casts, modelled exactly over `Rat` -/

/-- Truncation toward zero of a rational, as Rust `f64::trunc`: the
numerator T-divided by the denominator. -/
def ratTrunc (q : ℚ) : ℤ :=
  q.num.tdiv q.den

/-- Model of Rust `as u32` applied to a (finite) `f64` value: truncate toward
zero, then saturate into the range 0 to 2 to the 32nd minus 1. -/
def f64AsU32 (q : ℚ) : Nat :=
  if ratTrunc q ≤ 0 then 0
  else if 2 ^ 32 ≤ ratTrunc q then 2 ^ 32 - 1
  else (ratTrunc q).toNat

/-! ## The lock-free configuration store `IpcState` (src/ipc.rs:46-132) -/

/-- Model of `IpcState`: one field per atomic cell.  `opacity` and
`corner_radius` hold the value times 1000 as a `u32`, exactly as in the
source. -/
structure IpcState where
  color_r : Nat
  color_g : Nat
  color_b : Nat
  thickness : Nat
  opacity : Nat
  glow : Nat
  corner_radius : Nat
  animation_mode : Nat
  animation_speed : Nat
  visible : Bool

/-- `IpcState::new` (src/ipc.rs:60-81): real-valued fields are stored times
1000 via the `as u32` cast; `visible` starts true. -/
def IpcState.new (color : Nat × Nat × Nat) (thickness : Nat) (opacity : ℚ)
    (glow : Nat) (corner_radius : ℚ) (animation : Nat)
    (animation_speed : Nat) : IpcState :=
  { color_r := color.1, color_g := color.2.1, color_b := color.2.2
    thickness := thickness
    opacity := f64AsU32 (opacity * 1000)
    glow := glow
    corner_radius := f64AsU32 (corner_radius * 1000)
    animation_mode := animation
    animation_speed := animation_speed
    visible := true }

/-- `IpcState::get_color`. -/
def IpcState.get_color (s : IpcState) : Nat × Nat × Nat :=
  (s.color_r, s.color_g, s.color_b)

/-- `IpcState::set_color`. -/
def IpcState.set_color (s : IpcState) (r g b : Nat) : IpcState :=
  { s with color_r := r, color_g := g, color_b := b }

/-- `IpcState::get_opacity`: the stored `u32` divided by 1000. -/
def IpcState.get_opacity (s : IpcState) : ℚ :=
  (s.opacity : ℚ) / 1000

/-- `IpcState::set_opacity`: stores `(opacity * 1000.0) as u32`. -/
def IpcState.set_opacity (s : IpcState) (opacity : ℚ) : IpcState :=
  { s with opacity := f64AsU32 (opacity * 1000) }

/-- `IpcState::get_corner_radius`. -/
def IpcState.get_corner_radius (s : IpcState) : ℚ :=
  (s.corner_radius : ℚ) / 1000

/-- `IpcState::set_corner_radius`: stores `(radius * 1000.0) as u32`. -/
def IpcState.set_corner_radius (s : IpcState) (radius : ℚ) : IpcState :=
  { s with corner_radius := f64AsU32 (radius * 1000) }

/-- The direct `self.thickness.store(v, ..)` write used by the command
handler and the tray menu. -/
def IpcState.set_thickness (s : IpcState) (v : Nat) : IpcState :=
  { s with thickness := v }

/-- The direct `self.glow.store(v, ..)` write. -/
def IpcState.set_glow (s : IpcState) (v : Nat) : IpcState :=
  { s with glow := v }

/-- The direct `self.animation_mode.store(v, ..)` write. -/
def IpcState.set_animation_mode (s : IpcState) (v : Nat) : IpcState :=
  { s with animation_mode := v }

/-- The direct `self.animation_speed.store(v, ..)` write. -/
def IpcState.set_animation_speed (s : IpcState) (v : Nat) : IpcState :=
  { s with animation_speed := v }

/-- The direct `self.visible.store(v, ..)` write. -/
def IpcState.set_visible (s : IpcState) (v : Bool) : IpcState :=
  { s with visible := v }

/-- The state built from the config-file defaults (src/config.rs:45-53):
white, thickness 80, opacity 1.0, glow 80, corner ratio 2.5, animation none,
speed 120. -/
def initialState : IpcState :=
  IpcState.new (255, 255, 255) 80 1 80 (5 / 2) 0 120

example : initialState.opacity = 1000 := by with_unfolding_all decide
example : initialState.corner_radius = 2500 := by with_unfolding_all decide
example : parse_hex_color [35, 70, 70, 48, 48, 65, 97] = some (255, 0, 170) := by decide
example : parse_hex_color [226, 130, 185, 226, 130, 185] = none := by decide
example : fromStrRadix16U8 [43, 102] = some 15 := by decide
example : fromStrRadix16U8 [45, 48] = some 0 := by decide
example : color_to_hex 255 0 170 = [102, 102, 48, 48, 97, 97] := by decide
example : initialState.get_opacity = 1 := by with_unfolding_all decide
example : (initialState.set_opacity (1 / 2048)).get_opacity = 0 := by
  with_unfolding_all decide

/-! ### Facts about the exact `as u32` cast -/

theorem ratTrunc_eq_floor {q : ℚ} (h : 0 ≤ q) : ratTrunc q = ⌊q⌋ := by
  rw [Rat.floor_def, ratTrunc]
  exact Int.tdiv_eq_ediv (Rat.num_nonneg.mpr h) (Int.natCast_nonneg _)

theorem ratTrunc_nonpos {q : ℚ} (h : q ≤ 0) : ratTrunc q ≤ 0 := by
  have hn : q.num ≤ 0 := by
    rcases lt_or_eq_of_le h with h' | h'
    · exact le_of_lt (by simpa using (Rat.num_nonneg (q := q)).not.mpr (not_le.mpr h'))
    · simp [h']
  have h2 : 0 ≤ (-q.num).tdiv (q.den : ℤ) :=
    Int.tdiv_nonneg (by omega) (Int.natCast_nonneg _)
  rw [Int.neg_tdiv] at h2
  unfold ratTrunc
  omega

theorem f64AsU32_nonpos {q : ℚ} (h : q ≤ 0) : f64AsU32 q = 0 := by
  unfold f64AsU32
  simp [ratTrunc_nonpos h]

theorem f64AsU32_natCast (k : Nat) (hk : k < 2 ^ 32) : f64AsU32 (k : ℚ) = k := by
  unfold f64AsU32
  rw [ratTrunc_eq_floor (by positivity), Int.floor_natCast]
  split
  · omega
  · split
    · omega
    · omega

/-! ## Animation name encoding (src/ipc.rs:145-161) -/

/-- `animation_from_string`: case-insensitive name to mode byte, unknown
names mapping to 0 (none). -/
def animation_from_string (s : String) : Nat :=
  if s.toLower = "pulse" then 1
  else if s.toLower = "rainbow" then 2
  else if s.toLower = "breathe" then 3
  else 0

/-- `animation_to_string`: mode byte back to its lowercase name. -/
def animation_to_string (mode : Nat) : String :=
  if mode = 1 then "pulse"
  else if mode = 2 then "rainbow"
  else if mode = 3 then "breathe"
  else "none"

/-! ## The IPC command set and per-command dispatch (src/ipc.rs:17-30,
src/ipc.rs:168-230) -/

/-- Model of the `Command` enum (src/ipc.rs:19-30).  It has exactly these
ten variants in the source. -/
inductive Command where
  | SetColor (value : List Nat)
  | SetThickness (value : Nat)
  | SetOpacity (value : ℚ)
  | SetGlow (value : Nat)
  | SetCornerRadius (value : ℚ)
  | SetAnimation (value : String)
  | SetAnimationSpeed (value : Nat)
  | SetVisible (value : Bool)
  | GetState
  | Quit

/-- The serde tag (the `cmd` field of the wire encoding, equal to the
variant name) of a command. -/
def Command.tag : Command → String
  | .SetColor _ => "SetColor"
  | .SetThickness _ => "SetThickness"
  | .SetOpacity _ => "SetOpacity"
  | .SetGlow _ => "SetGlow"
  | .SetCornerRadius _ => "SetCornerRadius"
  | .SetAnimation _ => "SetAnimation"
  | .SetAnimationSpeed _ => "SetAnimationSpeed"
  | .SetVisible _ => "SetVisible"
  | .GetState => "GetState"
  | .Quit => "Quit"

/-- The tags of the ten commands of the source enum. -/
def commandTags : List String :=
  ["SetColor", "SetThickness", "SetOpacity", "SetGlow", "SetCornerRadius",
   "SetAnimation", "SetAnimationSpeed", "SetVisible", "GetState", "Quit"]

/-- Model of the `State` response struct (src/ipc.rs:34-43); the color is
the six-hex-digit byte string produced by `color_to_hex`. -/
structure StateResp where
  color : List Nat
  thickness : Nat
  opacity : ℚ
  glow : Nat
  corner_radius : ℚ
  animation : String
  animation_speed : Nat
  visible : Bool
deriving DecidableEq

/-- The `State` value assembled by the `GetState` arm of `handle_client`
(src/ipc.rs:208-222). -/
def stateResponse (s : IpcState) : StateResp :=
  { color := color_to_hex s.color_r s.color_g s.color_b
    thickness := s.thickness
    opacity := s.get_opacity
    glow := s.glow
    corner_radius := s.get_corner_radius
    animation := animation_to_string s.animation_mode
    animation_speed := s.animation_speed
    visible := s.visible }

/-- One step of the command dispatch in `handle_client`
(src/ipc.rs:182-226): the next store state, the response line written back
(only `GetState` writes one), and whether the command signals process
termination (only `Quit`).  `none` models the panic that `SetColor` can hit
inside `parse_hex_color`. -/
def applyCommand (s : IpcState) : Command → Option (IpcState × Option StateResp × Bool)
  | .SetColor hex =>
      (parse_hex_color hex).map fun c => (s.set_color c.1 c.2.1 c.2.2, none, false)
  | .SetThickness v => some (s.set_thickness v, none, false)
  | .SetOpacity v => some (s.set_opacity v, none, false)
  | .SetGlow v => some (s.set_glow v, none, false)
  | .SetCornerRadius v => some (s.set_corner_radius v, none, false)
  | .SetAnimation name => some (s.set_animation_mode (animation_from_string name), none, false)
  | .SetAnimationSpeed v => some (s.set_animation_speed v, none, false)
  | .SetVisible v => some (s.set_visible v, none, false)
  | .GetState => some (s, some (stateResponse s), false)
  | .Quit => some (s, none, true)

/-! ## The per-display enable registry -/

/-- Modelled from the spec: the monitor registry entry (spec section 3).  The
registry lives in `IpcState` in the full program (`add_monitor`,
`remove_monitor`, `toggle_monitor`, `is_monitor_enabled`, `get_monitors` are
called from src/main.rs) but those definitions are not among the source files
here; only their callers are. -/
structure MonitorEntry where
  id : String
  display_name : String
  enabled : Bool

/-- Modelled from the spec: `is_enabled(id)` "returns true for any id not
present (fail-open)" (spec section 4.1); for a present id it returns that
entry's enabled flag. -/
def is_monitor_enabled (reg : List MonitorEntry) (id : String) : Bool :=
  match reg.find? (fun e => e.id == id) with
  | some e => e.enabled
  | none => true

/-! ## Bar position and surface margins (src/config.rs:127-145,
src/main.rs:402-408) -/

/-- The `BarPosition` enum (src/config.rs:138-145). -/
inductive BarPosition where
  | Top
  | Bottom
  | Left
  | Right
deriving DecidableEq

/-- `Config::bar_position_enum` (src/config.rs:127-134): case-insensitive,
unknown strings mapping to `Top`. -/
def bar_position_enum (s : String) : BarPosition :=
  if s.toLower = "bottom" then BarPosition.Bottom
  else if s.toLower = "left" then BarPosition.Left
  else if s.toLower = "right" then BarPosition.Right
  else BarPosition.Top

/-- Rust `as i32` applied to a `u32` value below 2 to the 32nd: values from
2 to the 31st on wrap around to negatives (`RingLight` stores
`cfg.bar_height as i32`, src/main.rs:797). -/
def u32AsI32 (n : Nat) : ℤ :=
  if n < 2 ^ 31 then (n : ℤ) else (n : ℤ) - 2 ^ 32

/-- The `layer.set_margin(top, right, bottom, left)` arguments chosen in
`create_ring_for_output` (src/main.rs:403-408). -/
def set_margin_args (pos : BarPosition) (bar_height : ℤ) : ℤ × ℤ × ℤ × ℤ :=
  match pos with
  | .Top => (bar_height, 0, 0, 0)
  | .Bottom => (0, 0, bar_height, 0)
  | .Left => (0, 0, 0, bar_height)
  | .Right => (0, bar_height, 0, 0)

/-- The margins a freshly created surface gets, as a function of the
configured bar position and the configured `u32` bar height. -/
def create_ring_margins (pos : BarPosition) (bar_height_cfg : Nat) : ℤ × ℤ × ℤ × ℤ :=
  set_margin_args pos (u32AsI32 bar_height_cfg)

example : animation_from_string "Rainbow" = 2 := by with_unfolding_all decide
example : animation_to_string 2 = "rainbow" := by decide
example : create_ring_margins BarPosition.Bottom 35 = (0, 0, 35, 0) := by decide
example : is_monitor_enabled [] "DP-1" = true := by decide

/-! ## The per-frame compositing pipeline (src/main.rs:430-563), with `f64`
modelled by `Real` -/

noncomputable section

open Real

/-- Truncation toward zero of a real, as Rust `f64::trunc`. -/
def truncR (x : ℝ) : ℤ :=
  if x < 0 then -(⌊-x⌋) else ⌊x⌋

/-- Rust `as u8` applied to a (finite) `f64`: truncate toward zero, then
saturate into 0 to 255. -/
def f64AsU8R (x : ℝ) : Nat :=
  (min (max (truncR x) 0) 255).toNat

/-- Rust `as u32` applied to a (finite) `f64`: truncate toward zero, then
saturate into 0 to 2 to the 32nd minus 1. -/
def f64AsU32R (x : ℝ) : Nat :=
  (min (max (truncR x) 0) (2 ^ 32 - 1)).toNat

/-- Rust `%` on `f64` (fmod): `x - y * trunc(x / y)`. -/
def rustFmod (x y : ℝ) : ℝ :=
  x - y * (truncR (x / y) : ℝ)

/-- The hue computed by the Rainbow arm of `draw_monitor`
(src/main.rs:478): `(frame as f64 / speed as f64) % 1.0`. -/
def rainbow_hue (frame speed : Nat) : ℝ :=
  rustFmod ((frame : ℝ) / (speed : ℝ)) 1

/-- The `hue_to_rgb` closure inside `hsl_to_rgb` (src/main.rs:110-117). -/
def hue_to_rgb (p q t0 : ℝ) : ℝ :=
  let t1 := if t0 < 0 then t0 + 1 else t0
  let t := if t1 > 1 then t1 - 1 else t1
  if t < 1 / 6 then p + (q - p) * 6 * t
  else if t < 1 / 2 then q
  else if t < 2 / 3 then p + (q - p) * (2 / 3 - t) * 6
  else p

/-- `hsl_to_rgb` (src/main.rs:101-124). -/
def hsl_to_rgb (h s l : ℝ) : Nat × Nat × Nat :=
  if s = 0 then
    let v := f64AsU8R (l * 255)
    (v, v, v)
  else
    let q := if l < 0.5 then l * (1 + s) else l + s - l * s
    let p := 2 * l - q
    (f64AsU8R (hue_to_rgb p q (h + 1 / 3) * 255),
     f64AsU8R (hue_to_rgb p q h * 255),
     f64AsU8R (hue_to_rgb p q (h - 1 / 3) * 255))

/-- The animation step of `draw_monitor` (src/main.rs:467-489): effective
color and opacity from visibility, mode, frame, speed and the base values.
Mode 0 and unknown modes pass the base values through. -/
def animate (is_visible : Bool) (mode frame speed : Nat)
    (base_color : Nat × Nat × Nat) (base_opacity : ℝ) : (Nat × Nat × Nat) × ℝ :=
  if !is_visible then ((0, 0, 0), 0)
  else if mode = 1 then
    (base_color,
     base_opacity * (0.5 + 0.5 * Real.sin ((frame : ℝ) / (speed : ℝ) * 2 * π)))
  else if mode = 2 then
    (hsl_to_rgb (rainbow_hue frame speed) 1 0.5, base_opacity)
  else if mode = 3 then
    (base_color, base_opacity * max |Real.sin ((frame : ℝ) / (speed : ℝ) * π)| 0.1)
  else (base_color, base_opacity)

/-- `distance_to_inner_rounded_border` (src/main.rs:533-563). -/
def distance_to_inner_rounded_border (x y w h inset corner_radius : ℝ) : ℝ :=
  let left := inset
  let right := w - inset
  let top := inset
  let bottom := h - inset
  if right ≤ left ∨ bottom ≤ top then 100
  else
    let half_w := (right - left) / 2
    let half_h := (bottom - top) / 2
    let r := max (min (min corner_radius half_w) half_h) 0
    let cx := (left + right) / 2
    let cy := (top + bottom) / 2
    let half_width := (right - left) / 2
    let half_height := (bottom - top) / 2
    let px := |x - cx|
    let py := |y - cy|
    let qx := px - (half_width - r)
    let qy := py - (half_height - r)
    let outside_dist := Real.sqrt (max qx 0 ^ 2 + max qy 0 ^ 2)
    let inside_dist := min (max qx qy) 0
    outside_dist + inside_dist - r

/-- The per-pixel alpha of `draw_monitor` (src/main.rs:501-509) as a
function of the signed distance, the glow radius and the effective
opacity. -/
def ring_alpha (dist glow opacity : ℝ) : ℝ :=
  if dist ≤ 0 then 0
  else if glow < dist then opacity
  else opacity * (dist / glow * (dist / glow) * (dist / glow))

/-- One pixel of the frame buffer (src/main.rs:492-522), as the packed
`u32` written through `to_ne_bytes` (alpha in the most significant byte);
0 means all four bytes zero.  Integer `u32` arithmetic wraps and `as u8`
keeps the low byte, as in release-mode Rust. -/
def pixelValue (width height : Nat) (thickness glow corner_radius : ℝ)
    (color : Nat × Nat × Nat) (opacity : ℝ) (index : Nat) : Nat :=
  let x : ℝ := (index % width : Nat)
  let y : ℝ := (index / width : Nat)
  let total_ring := thickness + glow
  let dist_to_inner :=
    distance_to_inner_rounded_border x y (width : ℝ) (height : ℝ) total_ring corner_radius
  let alpha := ring_alpha dist_to_inner glow opacity
  if alpha > 0.001 then
    let a := f64AsU32R (alpha * 255)
    let pr := (color.1 * a) % 2 ^ 32 / 255 % 2 ^ 8
    let pg := (color.2.1 * a) % 2 ^ 32 / 255 % 2 ^ 8
    let pb := (color.2.2 * a) % 2 ^ 32 / 255 % 2 ^ 8
    (a * 2 ^ 24) % 2 ^ 32 ||| pr * 2 ^ 16 ||| pg * 2 ^ 8 ||| pb
  else 0

/-- `RingLight::draw_monitor` (src/main.rs:430-529) for one frame: `none`
when the surface has zero width or height (the early return, no buffer
submitted); otherwise the submitted buffer as the list of packed pixels,
row-major.  The registry lookup `is_monitor_enabled` and the global
visibility flag are combined exactly as at src/main.rs:453. -/
def draw_monitor (reg : List MonitorEntry) (output_name : String) (s : IpcState)
    (width height : Nat) (frame : Nat) : Option (List Nat) :=
  if width = 0 ∨ height = 0 then none
  else
    let monitor_enabled := is_monitor_enabled reg output_name
    let is_visible := s.visible && monitor_enabled
    let thickness : ℝ := (s.thickness : ℝ)
    let glow : ℝ := (s.glow : ℝ)
    let corner_radius : ℝ := thickness * ((s.get_corner_radius : ℚ) : ℝ)
    let co := animate is_visible s.animation_mode frame s.animation_speed
      s.get_color ((s.get_opacity : ℚ) : ℝ)
    some ((List.range (width * height)).map
      (pixelValue width height thickness glow corner_radius co.1 co.2))

end

/-! ## Claim theorems -/

/-- C1 (counterexample): setting opacity to the exactly-representable `f64`
value 1/2048 and reading it back yields 0, not 1/2048 — the times-1000
truncating fixed-point encoding is visible to callers, so a get after a set
of a real-valued field does not return the set value exactly. -/
theorem C1_counterexample :
    (initialState.set_opacity (1 / 2048)).get_opacity = 0 ∧ (0 : ℚ) ≠ 1 / 2048 := by
  constructor
  · with_unfolding_all decide
  · with_unfolding_all decide

/-- C1 (amended): a set immediately followed by a get of the same
`IpcState` field returns the set value exactly for the color channels and
the integer and boolean fields; for the real-valued fields opacity and
corner-radius ratio the value read back is the set value times 1000,
truncated toward zero and saturated to the `u32` range, divided by 1000 —
in particular the set value itself exactly when it is `k / 1000` for a
natural number `k` below 2 to the 32nd. -/
theorem C1_set_get_roundtrip (s : IpcState) (r g b t gl m sp : Nat)
    (vb : Bool) (v : ℚ) (k : Nat) (hk : k < 2 ^ 32) :
    (s.set_color r g b).get_color = (r, g, b)
    ∧ (s.set_thickness t).thickness = t
    ∧ (s.set_glow gl).glow = gl
    ∧ (s.set_animation_mode m).animation_mode = m
    ∧ (s.set_animation_speed sp).animation_speed = sp
    ∧ (s.set_visible vb).visible = vb
    ∧ (s.set_opacity v).get_opacity = (f64AsU32 (v * 1000) : ℚ) / 1000
    ∧ (s.set_corner_radius v).get_corner_radius = (f64AsU32 (v * 1000) : ℚ) / 1000
    ∧ (s.set_opacity ((k : ℚ) / 1000)).get_opacity = (k : ℚ) / 1000
    ∧ (s.set_corner_radius ((k : ℚ) / 1000)).get_corner_radius = (k : ℚ) / 1000 := by
  have hcancel : ((k : ℚ) / 1000) * 1000 = (k : ℚ) := by
    field_simp
  refine ⟨rfl, rfl, rfl, rfl, rfl, rfl, rfl, rfl, ?_, ?_⟩
  · show (f64AsU32 (((k : ℚ) / 1000) * 1000) : ℚ) / 1000 = (k : ℚ) / 1000
    rw [hcancel, f64AsU32_natCast k hk]
  · show (f64AsU32 (((k : ℚ) / 1000) * 1000) : ℚ) / 1000 = (k : ℚ) / 1000
    rw [hcancel, f64AsU32_natCast k hk]

/-- C1 (witness): the amended round-trip at concrete inputs — opacity
0.5 = 500/1000 survives the store exactly. -/
theorem C1_witness :
    (initialState.set_opacity ((500 : ℚ) / 1000)).get_opacity = (500 : ℚ) / 1000 :=
  (C1_set_get_roundtrip initialState 1 2 3 4 5 6 7 true (1 / 2) 500
    (by decide)).2.2.2.2.2.2.2.2.1

/-- C10: writing any value at most 0 to opacity or to the corner-radius
ratio reads back as exactly 0: the `as u32` cast saturates negative (and
zero) writes to 0, so a negative real-valued field is never observable. -/
theorem C10_negative_saturates (s : IpcState) (v : ℚ) (hv : v ≤ 0) :
    (s.set_opacity v).get_opacity = 0
    ∧ (s.set_corner_radius v).get_corner_radius = 0 := by
  have h0 : f64AsU32 (v * 1000) = 0 := by
    apply f64AsU32_nonpos
    have : (0 : ℚ) ≤ 1000 := by norm_num
    nlinarith
  constructor
  · show (f64AsU32 (v * 1000) : ℚ) / 1000 = 0
    rw [h0]
    norm_num
  · show (f64AsU32 (v * 1000) : ℚ) / 1000 = 0
    rw [h0]
    norm_num

/-- C10 (witness): at the concrete write minus 1. -/
theorem C10_witness :
    (initialState.set_opacity (-1)).get_opacity = 0
    ∧ (initialState.set_corner_radius (-1)).get_corner_radius = 0 :=
  C10_negative_saturates initialState (-1) (by norm_num)

/-- The margin of the tuple passed to `set_margin` (order top, right,
bottom, left) on a given edge. -/
def marginOn (e : BarPosition) (m : ℤ × ℤ × ℤ × ℤ) : ℤ :=
  match e with
  | .Top => m.1
  | .Right => m.2.1
  | .Bottom => m.2.2.1
  | .Left => m.2.2.2

/-- C2 (counterexample): the `Command` enum of the control server has no
variant whose wire tag is `SetMonitorEnabled` or `GetMonitors`; the claimed
twelve-command set does not match the source's command set. -/
theorem C2_counterexample :
    ¬∃ c : Command, c.tag = "SetMonitorEnabled" ∨ c.tag = "GetMonitors" := by
  rintro ⟨c, hc | hc⟩ <;> cases c <;> simp [Command.tag] at hc

/-- C2 (amended): the control server's command set accepts exactly the ten
commands SetColor, SetThickness, SetOpacity, SetGlow, SetCornerRadius,
SetAnimation, SetAnimationSpeed, SetVisible, GetState and Quit (there is no
SetMonitorEnabled and no GetMonitors command); a GetState command leaves the
store unchanged and is answered with one encoded `State` line holding the
configuration snapshot, and Quit signals termination of the whole
process. -/
theorem C2_command_set :
    (∀ c : Command, c.tag ∈ commandTags)
    ∧ (∀ t ∈ commandTags, ∃ c : Command, c.tag = t)
    ∧ commandTags.Nodup ∧ commandTags.length = 10
    ∧ (∀ s : IpcState,
        applyCommand s Command.GetState = some (s, some (stateResponse s), false))
    ∧ (∀ s : IpcState, applyCommand s Command.Quit = some (s, none, true)) := by
  refine ⟨?_, ?_, by decide, by decide, fun s => rfl, fun s => rfl⟩
  · intro c
    cases c <;> simp [Command.tag, commandTags]
  · intro t ht
    simp only [commandTags, List.mem_cons, List.not_mem_nil, or_false] at ht
    rcases ht with rfl | rfl | rfl | rfl | rfl | rfl | rfl | rfl | rfl | rfl
    · exact ⟨Command.SetColor [], rfl⟩
    · exact ⟨Command.SetThickness 0, rfl⟩
    · exact ⟨Command.SetOpacity 0, rfl⟩
    · exact ⟨Command.SetGlow 0, rfl⟩
    · exact ⟨Command.SetCornerRadius 0, rfl⟩
    · exact ⟨Command.SetAnimation "", rfl⟩
    · exact ⟨Command.SetAnimationSpeed 0, rfl⟩
    · exact ⟨Command.SetVisible true, rfl⟩
    · exact ⟨Command.GetState, rfl⟩
    · exact ⟨Command.Quit, rfl⟩

/-- C2 (witness): the GetState arm at the concrete initial store. -/
theorem C2_witness :
    applyCommand initialState Command.GetState
      = some (initialState, some (stateResponse initialState), false) :=
  C2_command_set.2.2.2.2.1 initialState

/-- C8 (counterexample): with a configured bar height of 0 every margin of a
freshly created surface is 0, so no edge margin is nonzero — the claim's
"exactly one edge margin is nonzero" fails for that configuration. -/
theorem C8_counterexample :
    create_ring_margins BarPosition.Top 0 = (0, 0, 0, 0) := by decide

/-- C8 (amended): when a surface is created, the margin on the edge matching
the configured bar position equals the configured bar height cast to `i32`
(the configured value itself whenever it is below 2 to the 31st) and the
other three margins are zero; in particular exactly one edge margin is
nonzero whenever the bar height is nonzero. -/
theorem C8_bar_margin (pos : BarPosition) (bh : Nat) (hbh : bh < 2 ^ 32) :
    marginOn pos (create_ring_margins pos bh) = u32AsI32 bh
    ∧ (∀ e : BarPosition, e ≠ pos → marginOn e (create_ring_margins pos bh) = 0)
    ∧ (bh < 2 ^ 31 → u32AsI32 bh = (bh : ℤ))
    ∧ (bh ≠ 0 → u32AsI32 bh ≠ 0) := by
  refine ⟨?_, ?_, ?_, ?_⟩
  · cases pos <;> rfl
  · intro e he
    cases pos <;> cases e <;> first | rfl | exact absurd rfl he
  · intro h
    rw [u32AsI32, if_pos (by omega)]
  · intro h
    unfold u32AsI32
    split <;> omega

/-- C8 (witness): top bar of height 35 puts margin 35 on the top edge. -/
theorem C8_witness :
    marginOn BarPosition.Top (create_ring_margins BarPosition.Top 35) = u32AsI32 35 :=
  (C8_bar_margin BarPosition.Top 35 (by decide)).1

/-! ## Hex digit facts used by the parse and re-encode claims -/

/-- The value of a hex digit byte accepted by `hexDigitVal` (0 for others). -/
def hexVal (b : Nat) : Nat := (hexDigitVal b).getD 0

theorem isHexDigitByte_lt {b : Nat} (h : isHexDigitByte b = true) : b < 103 := by
  unfold isHexDigitByte at h
  simp only [Bool.or_eq_true, Bool.and_eq_true, decide_eq_true_eq] at h
  omega

theorem hexByte_facts : ∀ b < 103, isHexDigitByte b = true →
    hexDigitVal b = some (hexVal b) ∧ hexVal b < 16
    ∧ hexDigitLower (hexVal b) = toLowerByte b
    ∧ isContinuationByte b = false ∧ b ≠ 43 ∧ b ≠ 45 := by decide

theorem fromStrRadix16U8_pair {b0 b1 : Nat} (h0 : isHexDigitByte b0 = true)
    (h1 : isHexDigitByte b1 = true) :
    fromStrRadix16U8 [b0, b1] = some (hexVal b0 * 16 + hexVal b1) := by
  obtain ⟨e0, v0lt, -, -, hne43, hne45⟩ := hexByte_facts b0 (isHexDigitByte_lt h0) h0
  obtain ⟨e1, v1lt, -, -, -, -⟩ := hexByte_facts b1 (isHexDigitByte_lt h1) h1
  unfold fromStrRadix16U8
  simp [e0, e1, hne43, hne45]
  rw [if_pos (show hexVal b0 ≤ 255 by omega)]
  show (if hexVal b0 * 16 + hexVal b1 ≤ 255 then some (hexVal b0 * 16 + hexVal b1)
    else none) = some (hexVal b0 * 16 + hexVal b1)
  rw [if_pos (by omega)]

theorem fromStrRadix16U8_bad0 {b0 b1 : Nat} (h : hexDigitVal b0 = none)
    (h43 : b0 ≠ 43) (h45 : b0 ≠ 45) :
    fromStrRadix16U8 [b0, b1] = none := by
  unfold fromStrRadix16U8
  simp [h, h43, h45]

theorem fromStrRadix16U8_bad1 {b0 b1 : Nat} (h : hexDigitVal b1 = none)
    (h43 : b0 ≠ 43) (h45 : b0 ≠ 45) :
    fromStrRadix16U8 [b0, b1] = none := by
  unfold fromStrRadix16U8
  simp [h, h43, h45]

/-- C9 (counterexample): hex color parsing is not total: on the 6-byte
UTF-8 encoding of two U+20B9 characters, byte offset 2 falls inside a
character, the byte slice `&hex[0..2]` panics, and no color is produced. -/
theorem C9_counterexample :
    parse_hex_color [226, 130, 185, 226, 130, 185] = none := by decide

/-- C9 (amended): after stripping leading `#` bytes, an input shorter than
6 bytes parses to white (255, 255, 255); a longer input panics (is
rejected) exactly when byte offset 2, 4 or 6 falls inside a multi-byte
character, and otherwise each 2-byte group goes through
`u8::from_str_radix`: a pair of hex digits yields its value, a group the
integer parser rejects yields 255 — but the integer parser also accepts
signed forms, e.g. `+f` parses to 15 rather than yielding 255. -/
theorem C9_parse_hex_characterization :
    (∀ s : List Nat, (s.dropWhile (fun b => b = 35)).length < 6 →
      parse_hex_color s = some (255, 255, 255))
    ∧ (∀ s : List Nat, 6 ≤ (s.dropWhile (fun b => b = 35)).length →
        (isCharBoundary (s.dropWhile (fun b => b = 35)) 2
          && isCharBoundary (s.dropWhile (fun b => b = 35)) 4
          && isCharBoundary (s.dropWhile (fun b => b = 35)) 6) = false →
      parse_hex_color s = none)
    ∧ (∀ s : List Nat, 6 ≤ (s.dropWhile (fun b => b = 35)).length →
        (isCharBoundary (s.dropWhile (fun b => b = 35)) 2
          && isCharBoundary (s.dropWhile (fun b => b = 35)) 4
          && isCharBoundary (s.dropWhile (fun b => b = 35)) 6) = true →
      parse_hex_color s =
        some ((fromStrRadix16U8 ((s.dropWhile (fun b => b = 35)).take 2)).getD 255,
              (fromStrRadix16U8 (((s.dropWhile (fun b => b = 35)).drop 2).take 2)).getD 255,
              (fromStrRadix16U8 (((s.dropWhile (fun b => b = 35)).drop 4).take 2)).getD 255))
    ∧ (∀ b0 b1 : Nat, isHexDigitByte b0 = true → isHexDigitByte b1 = true →
        fromStrRadix16U8 [b0, b1] = some (hexVal b0 * 16 + hexVal b1))
    ∧ (∀ b0 b1 : Nat, hexDigitVal b0 = none → b0 ≠ 43 → b0 ≠ 45 →
        fromStrRadix16U8 [b0, b1] = none)
    ∧ fromStrRadix16U8 [43, 102] = some 15 := by
  refine ⟨?_, ?_, ?_, ?_, ?_, by decide⟩
  · intro s h
    unfold parse_hex_color
    rw [if_pos h]
  · intro s h hb
    unfold parse_hex_color
    rw [if_neg (by omega), if_neg (by simp [hb])]
  · intro s h hb
    unfold parse_hex_color
    rw [if_neg (by omega), if_pos hb]
  · intro b0 b1 h0 h1
    exact fromStrRadix16U8_pair h0 h1
  · intro b0 b1 h h43 h45
    exact fromStrRadix16U8_bad0 h h43 h45

/-- C9 (witness): the characterization applied at the all-ASCII digit
string 012345 gives the channels 1, 35 and 69. -/
theorem C9_witness :
    parse_hex_color [48, 49, 50, 51, 52, 53] = some (1, 35, 69) := by
  have h3 := C9_parse_hex_characterization.2.2.1 [48, 49, 50, 51, 52, 53]
    (by decide) (by decide)
  simpa using h3

/-- C4: for every byte string that, after stripping leading `#` markers,
consists of 6 or more hex digit bytes, parsing as done for SetColor and
re-encoding as done for GetState yields exactly the first 6 digits,
lowercased. -/
theorem C4_hex_roundtrip (s : List Nat)
    (hhex : ∀ b ∈ s.dropWhile (fun b => b = 35), isHexDigitByte b = true)
    (hlen : 6 ≤ (s.dropWhile (fun b => b = 35)).length) :
    (parse_hex_color s).map (fun c => color_to_hex c.1 c.2.1 c.2.2)
      = some (((s.dropWhile (fun b => b = 35)).take 6).map toLowerByte) := by
  unfold parse_hex_color
  generalize hts : s.dropWhile (fun b => b = 35) = t at hhex hlen ⊢
  rcases t with - | ⟨b0, t⟩
  · simp at hlen
  rcases t with - | ⟨b1, t⟩
  · simp at hlen
  rcases t with - | ⟨b2, t⟩
  · simp at hlen
  rcases t with - | ⟨b3, t⟩
  · simp at hlen
  rcases t with - | ⟨b4, t⟩
  · simp at hlen
  rcases t with - | ⟨b5, rest⟩
  · simp at hlen
  have hb0 : isHexDigitByte b0 = true := hhex b0 (by simp)
  have hb1 : isHexDigitByte b1 = true := hhex b1 (by simp)
  have hb2 : isHexDigitByte b2 = true := hhex b2 (by simp)
  have hb3 : isHexDigitByte b3 = true := hhex b3 (by simp)
  have hb4 : isHexDigitByte b4 = true := hhex b4 (by simp)
  have hb5 : isHexDigitByte b5 = true := hhex b5 (by simp)
  obtain ⟨e0, v0, l0, c0, -, -⟩ := hexByte_facts b0 (isHexDigitByte_lt hb0) hb0
  obtain ⟨e1, v1, l1, c1, -, -⟩ := hexByte_facts b1 (isHexDigitByte_lt hb1) hb1
  obtain ⟨e2, v2, l2, c2, -, -⟩ := hexByte_facts b2 (isHexDigitByte_lt hb2) hb2
  obtain ⟨e3, v3, l3, c3, -, -⟩ := hexByte_facts b3 (isHexDigitByte_lt hb3) hb3
  obtain ⟨e4, v4, l4, c4, -, -⟩ := hexByte_facts b4 (isHexDigitByte_lt hb4) hb4
  obtain ⟨e5, v5, l5, c5, -, -⟩ := hexByte_facts b5 (isHexDigitByte_lt hb5) hb5
  have hcb2 : isCharBoundary (b0 :: b1 :: b2 :: b3 :: b4 :: b5 :: rest) 2 = true := by
    unfold isCharBoundary
    rw [if_neg (by omega), if_neg (by simp), if_pos (by simp)]
    simp [List.getD, c2]
  have hcb4 : isCharBoundary (b0 :: b1 :: b2 :: b3 :: b4 :: b5 :: rest) 4 = true := by
    unfold isCharBoundary
    rw [if_neg (by omega), if_neg (by simp), if_pos (by simp)]
    simp [List.getD, c4]
  have hcb6 : isCharBoundary (b0 :: b1 :: b2 :: b3 :: b4 :: b5 :: rest) 6 = true := by
    rcases rest with - | ⟨b6, rest2⟩
    · unfold isCharBoundary
      rw [if_neg (by omega), if_pos (by simp)]
    · have hb6 : isHexDigitByte b6 = true := hhex b6 (by simp)
      obtain ⟨-, -, -, c6, -, -⟩ := hexByte_facts b6 (isHexDigitByte_lt hb6) hb6
      unfold isCharBoundary
      rw [if_neg (by omega), if_neg (by simp), if_pos (by simp)]
      simp [List.getD, c6]
  rw [if_neg (by simp), if_pos (by simp [hcb2, hcb4, hcb6])]
  have g0 : fromStrRadix16U8 [b0, b1] = some (hexVal b0 * 16 + hexVal b1) :=
    fromStrRadix16U8_pair hb0 hb1
  have g1 : fromStrRadix16U8 [b2, b3] = some (hexVal b2 * 16 + hexVal b3) :=
    fromStrRadix16U8_pair hb2 hb3
  have g2 : fromStrRadix16U8 [b4, b5] = some (hexVal b4 * 16 + hexVal b5) :=
    fromStrRadix16U8_pair hb4 hb5
  have d0 : (hexVal b0 * 16 + hexVal b1) / 16 % 16 = hexVal b0 := by omega
  have m0 : (hexVal b0 * 16 + hexVal b1) % 16 = hexVal b1 := by omega
  have d1 : (hexVal b2 * 16 + hexVal b3) / 16 % 16 = hexVal b2 := by omega
  have m1 : (hexVal b2 * 16 + hexVal b3) % 16 = hexVal b3 := by omega
  have d2 : (hexVal b4 * 16 + hexVal b5) / 16 % 16 = hexVal b4 := by omega
  have m2 : (hexVal b4 * 16 + hexVal b5) % 16 = hexVal b5 := by omega
  simp only [List.take, List.drop]
  rw [g0, g1, g2]
  simp [color_to_hex, toHex2, d0, m0, d1, m1, d2, m2, l0, l1, l2, l3, l4, l5]

/-- C4 (witness): the round trip at the concrete string with a marker and
mixed case, FF00Aa with a leading number sign, re-encodes to ff00aa. -/
theorem C4_witness :
    (parse_hex_color [35, 70, 70, 48, 48, 65, 97]).map
        (fun c => color_to_hex c.1 c.2.1 c.2.2)
      = some [102, 102, 48, 48, 97, 97] := by
  have h := C4_hex_roundtrip [35, 70, 70, 48, 48, 65, 97] (by decide) (by decide)
  simpa using h

/-! ## Glow falloff facts -/

theorem ring_alpha_closed_form (G op : ℝ) (hG : 0 < G) (d : ℝ) :
    ring_alpha d G op = op * min (max (d / G) 0) 1 ^ 3 := by
  unfold ring_alpha
  rcases le_or_lt d 0 with h | h
  · rw [if_pos h]
    have hd : d / G ≤ 0 := div_nonpos_iff.mpr (Or.inr ⟨h, hG.le⟩)
    rw [max_eq_right hd, min_eq_left zero_le_one]
    ring
  · rw [if_neg (not_le.mpr h)]
    have hd0 : 0 ≤ d / G := by positivity
    rcases lt_or_le G d with h2 | h2
    · rw [if_pos h2]
      have : (1 : ℝ) ≤ d / G := (one_le_div hG).mpr h2.le
      rw [max_eq_left hd0, min_eq_right this]
      ring
    · rw [if_neg (not_lt.mpr h2)]
      have : d / G ≤ 1 := (div_le_one hG).mpr h2
      rw [max_eq_left hd0, min_eq_left this]
      ring

theorem ring_alpha_zero_opacity (d g : ℝ) : ring_alpha d g 0 = 0 := by
  unfold ring_alpha
  split_ifs <;> simp

/-- C5: for glow radius G above 0 and a (nonnegative, as every effective
opacity produced by the animation step is) fixed opacity, the per-pixel
alpha as a function of the signed distance is 0 at distances at most 0,
the cubic ease (d/G) cubed times the opacity on the glow band, the full
opacity beyond it, continuous everywhere (so no jump at distance = glow,
where it equals the full opacity), and monotone non-decreasing. -/
theorem C5_alpha_profile (G op : ℝ) (hG : 0 < G) (hop : 0 ≤ op) :
    (∀ d : ℝ, d ≤ 0 → ring_alpha d G op = 0)
    ∧ (∀ d : ℝ, 0 < d → d ≤ G → ring_alpha d G op = (d / G) ^ 3 * op)
    ∧ (∀ d : ℝ, G < d → ring_alpha d G op = op)
    ∧ ring_alpha G G op = op
    ∧ Continuous (fun d => ring_alpha d G op)
    ∧ Monotone (fun d => ring_alpha d G op) := by
  refine ⟨?_, ?_, ?_, ?_, ?_, ?_⟩
  · intro d h
    unfold ring_alpha
    rw [if_pos h]
  · intro d h1 h2
    unfold ring_alpha
    rw [if_neg (not_le.mpr h1), if_neg (not_lt.mpr h2)]
    ring
  · intro d h
    unfold ring_alpha
    rw [if_neg (by linarith), if_pos h]
  · unfold ring_alpha
    rw [if_neg (not_le.mpr hG), if_neg (lt_irrefl G)]
    rw [div_self hG.ne']
    ring
  · have hcf : (fun d => ring_alpha d G op)
        = fun d => op * min (max (d / G) 0) 1 ^ 3 :=
      funext (ring_alpha_closed_form G op hG)
    rw [hcf]
    have hf : Continuous fun d : ℝ => min (max (d / G) 0) 1 :=
      ((continuous_id.div_const G).max continuous_const).min continuous_const
    exact continuous_const.mul (hf.pow 3)
  · intro a b hab
    show ring_alpha a G op ≤ ring_alpha b G op
    rw [ring_alpha_closed_form G op hG, ring_alpha_closed_form G op hG]
    have hdiv : a / G ≤ b / G := (div_le_div_iff_of_pos_right hG).mpr hab
    have hmono : min (max (a / G) 0) 1 ≤ min (max (b / G) 0) 1 :=
      min_le_min (max_le_max hdiv le_rfl) le_rfl
    have hnn : 0 ≤ min (max (a / G) 0) 1 :=
      le_min (le_max_right _ _) zero_le_one
    exact mul_le_mul_of_nonneg_left (pow_le_pow_left₀ hnn hmono 3) hop

/-- C5 (witness): the profile at glow 1, opacity 1, evaluated inside the
hole, beyond the band, and at the band boundary. -/
theorem C5_witness :
    ring_alpha (-1) 1 1 = 0 ∧ ring_alpha 2 1 1 = 1 ∧ ring_alpha 1 1 1 = 1
    ∧ Continuous (fun d => ring_alpha d 1 1) := by
  obtain ⟨h1, -, h3, h4, h5, -⟩ := C5_alpha_profile 1 1 one_pos zero_le_one
  exact ⟨h1 (-1) (by norm_num), h3 2 one_lt_two, h4, h5⟩

theorem truncR_eq_floor {x : ℝ} (h : 0 ≤ x) : truncR x = ⌊x⌋ := by
  unfold truncR
  rw [if_neg (not_lt.mpr h)]

/-- C7: in Rainbow mode (mode byte 2, the encoding of the name rainbow),
the hue is periodic in the frame counter with period `speed` for every
speed above 0, and the effective color is always produced by HSL-to-RGB
conversion at saturation 1.0 and lightness 0.5 with the opacity passed
through unchanged. -/
theorem C7_rainbow (frame speed : Nat) (c : Nat × Nat × Nat) (op : ℝ)
    (hs : 0 < speed) :
    rainbow_hue (frame + speed) speed = rainbow_hue frame speed
    ∧ animate true 2 frame speed c op
        = (hsl_to_rgb (rainbow_hue frame speed) 1 0.5, op)
    ∧ animation_from_string "rainbow" = 2 := by
  refine ⟨?_, rfl, by with_unfolding_all decide⟩
  have hs0 : (speed : ℝ) ≠ 0 := Nat.cast_ne_zero.mpr hs.ne'
  have hfr : (0 : ℝ) ≤ (frame : ℝ) / (speed : ℝ) := by positivity
  unfold rainbow_hue rustFmod
  rw [div_one, div_one]
  have e1 : ((frame + speed : ℕ) : ℝ) / (speed : ℝ)
      = (frame : ℝ) / (speed : ℝ) + 1 := by
    push_cast
    field_simp
  rw [e1, truncR_eq_floor (by linarith), truncR_eq_floor hfr, Int.floor_add_one]
  push_cast
  ring

/-- C7 (witness): one period at speed 1 starting from frame 0. -/
theorem C7_witness :
    rainbow_hue (0 + 1) 1 = rainbow_hue 0 1
    ∧ animate true 2 0 1 (255, 255, 255) 1
        = (hsl_to_rgb (rainbow_hue 0 1) 1 0.5, 1) :=
  ⟨(C7_rainbow 0 1 (255, 255, 255) 1 Nat.one_pos).1,
   (C7_rainbow 0 1 (255, 255, 255) 1 Nat.one_pos).2.1⟩

theorem sdf_core_nonpos {qx qy r : ℝ} (hx : qx ≤ 0) (hy : qy ≤ 0) (hr : 0 ≤ r) :
    Real.sqrt (max qx 0 ^ 2 + max qy 0 ^ 2) + min (max qx qy) 0 - r ≤ 0 := by
  rw [max_eq_right hx, max_eq_right hy]
  have hm : min (max qx qy) 0 ≤ 0 := min_le_right _ _
  have hs : Real.sqrt ((0 : ℝ) ^ 2 + (0 : ℝ) ^ 2) = 0 := by
    norm_num
  rw [hs]
  linarith

theorem sdf_center_nonpos (w h inset cr : ℝ)
    (hw : 2 * inset < w) (hh : 2 * inset < h) :
    distance_to_inner_rounded_border (w / 2) (h / 2) w h inset cr ≤ 0 := by
  unfold distance_to_inner_rounded_border
  rw [if_neg (by push_neg; constructor <;> linarith)]
  apply sdf_core_nonpos
  · rw [show w / 2 - (inset + (w - inset)) / 2 = 0 from by ring, abs_zero]
    have h1 : min (min cr ((w - inset - inset) / 2)) ((h - inset - inset) / 2)
        ≤ (w - inset - inset) / 2 :=
      le_trans (min_le_left _ _) (min_le_right _ _)
    have h2 : (0 : ℝ) ≤ (w - inset - inset) / 2 := by linarith
    have := max_le h1 h2
    linarith
  · rw [show h / 2 - (inset + (h - inset)) / 2 = 0 from by ring, abs_zero]
    have h1 : min (min cr ((w - inset - inset) / 2)) ((h - inset - inset) / 2)
        ≤ (h - inset - inset) / 2 := min_le_right _ _
    have h2 : (0 : ℝ) ≤ (h - inset - inset) / 2 := by linarith
    have := max_le h1 h2
    linarith
  · exact le_max_right _ _

/-- C3 (counterexample): on a 2-pixel-wide, 2-pixel-high surface with
thickness 1 and glow 1 (both dimensions nonzero, thickness plus glow above
0) the inset rectangle degenerates, the distance function returns its
sentinel 100, and the alpha at the exact center (pixel (1,1) = (w/2, h/2))
is the full opacity 1, not 0. -/
theorem C3_counterexample :
    ring_alpha (distance_to_inner_rounded_border 1 1 2 2 (1 + 1) 5) 1 1 = 1 := by
  unfold distance_to_inner_rounded_border
  rw [if_pos (by norm_num)]
  unfold ring_alpha
  rw [if_neg (by norm_num), if_pos (by norm_num)]

/-- C3 (amended): for every surface and every thickness T and glow G with
T + G above 0 whose inset rectangle is nondegenerate — twice (T + G)
smaller than both the width and the height — the alpha at the exact center
point (w/2, h/2) of the surface is 0, for every corner radius and
opacity. -/
theorem C3_center_alpha (w h T G : Nat) (cr op : ℝ)
    (_hTG : 0 < T + G) (hw : 2 * (T + G) < w) (hh : 2 * (T + G) < h) :
    ring_alpha
      (distance_to_inner_rounded_border ((w : ℝ) / 2) ((h : ℝ) / 2)
        (w : ℝ) (h : ℝ) ((T : ℝ) + (G : ℝ)) cr)
      (G : ℝ) op = 0 := by
  have hwr : 2 * ((T : ℝ) + (G : ℝ)) < (w : ℝ) := by exact_mod_cast hw
  have hhr : 2 * ((T : ℝ) + (G : ℝ)) < (h : ℝ) := by exact_mod_cast hh
  have hd := sdf_center_nonpos (w : ℝ) (h : ℝ) ((T : ℝ) + (G : ℝ)) cr hwr hhr
  unfold ring_alpha
  rw [if_pos hd]

/-- C3 (witness): a 200 by 200 surface with thickness 40, glow 40, corner
radius 100, opacity 1. -/
theorem C3_witness :
    ring_alpha
      (distance_to_inner_rounded_border (((200 : Nat) : ℝ) / 2) (((200 : Nat) : ℝ) / 2)
        ((200 : Nat) : ℝ) ((200 : Nat) : ℝ) (((40 : Nat) : ℝ) + ((40 : Nat) : ℝ)) 100)
      ((40 : Nat) : ℝ) 1 = 0 :=
  C3_center_alpha 200 200 40 40 100 1 (by decide) (by decide) (by decide)

theorem pixelValue_zero_opacity (width height : Nat) (t g cr : ℝ)
    (c : Nat × Nat × Nat) (index : Nat) :
    pixelValue width height t g cr c 0 index = 0 := by
  unfold pixelValue
  dsimp only
  rw [ring_alpha_zero_opacity]
  rw [if_neg (by norm_num)]

/-- C6 (counterexample): a display whose registry entry is disabled but
whose surface still has width 0 gets no submitted buffer at all — the
zero-size early return fires before the transparent-buffer path, so the
claim needs its nonzero-size restriction. -/
theorem C6_counterexample :
    draw_monitor [⟨"DP-1", "Dell U2720Q", false⟩] "DP-1" initialState 0 64 0
      = none := by
  unfold draw_monitor
  rw [if_pos (Or.inl rfl)]

/-- C6 (amended): for every display whose registry enable flag is false, or
when global visibility is false, and whose surface has nonzero width and
height, the compositor still computes and submits a buffer for that
display's frame, and every packed pixel of that buffer is 0 — all four
bytes zero, fully transparent.  (With zero width or height no buffer is
submitted at all, also when the display is enabled.) -/
theorem C6_disabled_transparent (reg : List MonitorEntry) (id : String)
    (s : IpcState) (w h frame : Nat)
    (hdis : is_monitor_enabled reg id = false ∨ s.visible = false)
    (hw : w ≠ 0) (hh : h ≠ 0) :
    draw_monitor reg id s w h frame = some (List.replicate (w * h) 0) := by
  unfold draw_monitor
  rw [if_neg (by tauto)]
  dsimp only
  have hvis : (s.visible && is_monitor_enabled reg id) = false := by
    rcases hdis with h1 | h1
    · rw [h1, Bool.and_false]
    · rw [h1, Bool.false_and]
  rw [hvis]
  have hanim : animate false s.animation_mode frame s.animation_speed
      s.get_color ((s.get_opacity : ℚ) : ℝ) = ((0, 0, 0), 0) := rfl
  rw [hanim]
  congr 1
  have hz : ∀ x ∈ List.range (w * h),
      pixelValue w h (s.thickness : ℝ) (s.glow : ℝ)
        ((s.thickness : ℝ) * ((s.get_corner_radius : ℚ) : ℝ)) (0, 0, 0) 0 x = 0 :=
    fun x _ => pixelValue_zero_opacity _ _ _ _ _ _ _
  rw [List.map_congr_left hz, List.map_const', List.length_range]

/-- C6 (witness): a present-but-disabled display, global visibility true,
on a 2 by 2 surface: the submitted buffer is four fully transparent
pixels. -/
theorem C6_witness :
    draw_monitor [⟨"DP-1", "Dell U2720Q", false⟩] "DP-1" initialState 2 2 0
      = some (List.replicate (2 * 2) 0) :=
  C6_disabled_transparent [⟨"DP-1", "Dell U2720Q", false⟩] "DP-1" initialState 2 2 0
    (Or.inl (by with_unfolding_all decide)) (by decide) (by decide)
